import Mathlib

/-!
Verification of the snake-game simulation in src/main.rs.

The file shallowly embeds the state and the per-tick systems of the game:
the `SnakeHead` component, the `SnakeBody` segment cells, the `LastPosition`
resource and the `Apple`, together with the `FixedUpdate` systems
(`move_snake_body`, `move_snake_head`, `grow_snake_body`, in their declared
order) and the `Update`-schedule checks (`border_collision`,
`snake_body_collision`) that observe the state the fixed tick committed.
Coordinates are cell units: the source stores positions both as `(i32, i32)`
cells and as pixel translations (`cell * PIXEL_UNIT_SIZE`, converted back by
an exact division), so the cell view is lossless.
-/

/-- A playfield cell: an `(i32, i32)` coordinate pair in the source. -/
abbrev Cell := Int × Int

/-- The `Direction` enum of the source. -/
inductive Direction where
| up
| down
| left
| right
  deriving DecidableEq

/-- `const PLAYFIELD: (i32, i32) = (33, 33)`. -/
def PLAYFIELD : Int × Int := (33, 33)

/-- `const PLAYFIELD_MAX_INDEX: u32 = (PLAYFIELD.0 * PLAYFIELD.1) as u32`. -/
def PLAYFIELD_MAX_INDEX : Nat := (PLAYFIELD.1 * PLAYFIELD.2).toNat

/-- The `SnakeHead` component: current direction, pending player request
(`potential_direction`) and the head's cell. -/
structure SnakeHead where
  direction : Direction
  potential_direction : Direction
  position : Cell
  deriving DecidableEq

/-- `SnakeHead::new()`. -/
def SnakeHead.new : SnakeHead :=
  { direction := .right, potential_direction := .right, position := (0, 0) }

/-- The simulation state the fixed-update systems mutate: the head entity, the
`SnakeBody` segment cells in spawn order (nearest to the head first), the
`LastPosition` resource, and the cell of the single `Apple` entity (asserted to
exist by `apple_query.single()` in `move_snake_head`; `spawn_apple` creates it
before the first fixed tick runs). -/
structure GameState where
  head : SnakeHead
  body : List Cell
  lastPosition : Cell
  apple : Cell
  deriving DecidableEq

/-- The direction arbitration at the top of `move_snake_head`: the pending
request is taken unless the current direction is its exact reverse, in which
case the current direction is kept. -/
def arbitrate (current potential : Direction) : Direction :=
  match potential with
  | .up => if current ≠ .down then .up else current
  | .down => if current ≠ .up then .down else current
  | .left => if current ≠ .right then .left else current
  | .right => if current ≠ .left then .right else current

/-- One grid step in a direction: the `transform.translation` update of
`move_snake_head`, expressed in cell units. -/
def stepDir (d : Direction) (p : Cell) : Cell :=
  match d with
  | .up => (p.1, p.2 + 1)
  | .down => (p.1, p.2 - 1)
  | .left => (p.1 - 1, p.2)
  | .right => (p.1 + 1, p.2)

/-- The loop of `move_snake_body`: each segment takes its predecessor's
pre-tick cell, `prev` starting at the head's pre-tick cell; the pair returned
is the shifted segment list and the final `prev`, which the system writes to
the `LastPosition` resource. -/
def shiftBody : Cell → List Cell → List Cell × Cell
| prev, [] => ([], prev)
| prev, b :: rest => (prev :: (shiftBody b rest).1, (shiftBody b rest).2)

/-- The write `player_input` performs on the head when a direction-mapped key
is pressed. -/
def player_input (d : Direction) (h : SnakeHead) : SnakeHead :=
  { h with potential_direction := d }

/-- The cell the head moves to during a tick: the arbitrated direction applied
to the pre-tick head cell (computed inside `move_snake_head`). -/
def nextHeadCell (s : GameState) : Cell :=
  stepDir (arbitrate s.head.direction s.head.potential_direction) s.head.position

/-- One `FixedUpdate` tick, in the source's declared order: `move_snake_body`,
then `move_snake_head` (arbitration, head move, apple-eaten check against the
post-move head cell), then `grow_snake_body` (when the apple was eaten, append
a segment at the `LastPosition` cell just written by `move_snake_body`). The
apple cell itself is left in place here: its despawn/respawn is done by
`spawn_apple` in the `Update` schedule, modelled by `get_valid_apple_spawn`. -/
def fixedTick (s : GameState) : GameState :=
  let moved := shiftBody s.head.position s.body
  let dir := arbitrate s.head.direction s.head.potential_direction
  let pos := stepDir dir s.head.position
  { head := { direction := dir, potential_direction := s.head.potential_direction,
              position := pos },
    body := if s.apple = pos then moved.1 ++ [moved.2] else moved.1,
    lastPosition := moved.2,
    apple := s.apple }

/-- The test of the `border_collision` system,
`position.0.abs() > PLAYFIELD.0 / 2 || position.1.abs() > PLAYFIELD.1 / 2`,
with the playfield constant as a parameter. -/
def border_collision (pf : Int × Int) (pos : Cell) : Bool :=
  decide (pf.1 / 2 < (pos.1.natAbs : Int)) || decide (pf.2 / 2 < (pos.2.natAbs : Int))

/-- The loop of the `snake_body_collision` system: does the head cell equal
any body segment's cell. -/
def snake_body_collision (headPos : Cell) (body : List Cell) : Bool :=
  body.any fun b => decide (headPos = b)

/-- Which of the two collision systems ended the run. -/
inductive GameOverReason where
| boundary
| selfCollision
  deriving DecidableEq

/-- The outcome of one tick as the driver observes it; `gameOver` carries the
state at the moment the process exits (the collision systems run after the
fixed tick has committed its movement). -/
inductive GameOutcome where
| running (s : GameState)
| gameOver (reason : GameOverReason) (final : GameState)
  deriving DecidableEq

/-- One simulation tick as observed from outside: the `FixedUpdate` systems
run, then `border_collision` and `snake_body_collision` examine the committed
post-move state and terminate the process if they fire. -/
def tick (pf : Int × Int) (s : GameState) : GameOutcome :=
  if border_collision pf (fixedTick s).head.position then
    .gameOver .boundary (fixedTick s)
  else if snake_body_collision (fixedTick s).head.position (fixedTick s).body then
    .gameOver .selfCollision (fixedTick s)
  else
    .running (fixedTick s)

/-- The snake's cells, head first: `SnakeHead.position` followed by the
`SnakeBody` cells in spawn order. -/
def segments (s : GameState) : List Cell := s.head.position :: s.body

/-- `setup_snake`: the head is `SnakeHead::new()`, one body segment is spawned
at `(-1, 0)`, and `LastPosition` is set to `(-2, 0)`; the apple cell is the one
`spawn_apple` produces on the first frame. -/
def initialState (apple : Cell) : GameState :=
  { head := SnakeHead.new, body := [(-1, 0)], lastPosition := (-2, 0), apple := apple }

/-- The index-to-cell map used inside `get_valid_apple_spawn`:
`(i % PLAYFIELD.0 - PLAYFIELD.0 / 2, i / PLAYFIELD.1 - PLAYFIELD.1 / 2)`. -/
def indexToCell (i : Nat) : Cell :=
  ((i : Int) % PLAYFIELD.1 - PLAYFIELD.1 / 2, (i : Int) / PLAYFIELD.2 - PLAYFIELD.2 / 2)

/-- The rejection loop of `get_valid_apple_spawn`, with the random draws
(`gen_range(0..PLAYFIELD_MAX_INDEX)`) made explicit as a list of indices;
`none` means the supplied draws were exhausted with the loop still spinning. -/
def get_valid_apple_spawn (used : List Cell) :
    List (Fin PLAYFIELD_MAX_INDEX) → Option Cell
| [] => none
| d :: rest =>
  if indexToCell d.val ∈ used then get_valid_apple_spawn used rest
  else some (indexToCell d.val)

/-- Every cell of the playfield, one per valid index. -/
def allCells : List Cell := (List.range PLAYFIELD_MAX_INDEX).map indexToCell

/-- Grid adjacency: Manhattan distance exactly one. -/
def adj (a b : Cell) : Prop :=
  (a.1 - b.1).natAbs + (a.2 - b.2).natAbs = 1

instance : DecidableRel adj := fun a b =>
  Nat.decEq ((a.1 - b.1).natAbs + (a.2 - b.2).natAbs) 1

/-- The reverse of a direction: the spec's notion of directly opposite. -/
def Direction.opposite : Direction → Direction
| .up => .down
| .down => .up
| .left => .right
| .right => .left

lemma shiftBody_eq (prev : Cell) (l : List Cell) :
    shiftBody prev l = ((prev :: l).dropLast, l.getLastD prev) := by
  induction l generalizing prev with
  | nil => rfl
  | cons b rest ih =>
    simp only [shiftBody, ih b, List.dropLast_cons₂, List.getLastD_cons]

lemma dropLast_concat_getLastD (prev : Cell) (l : List Cell) :
    (prev :: l).dropLast ++ [l.getLastD prev] = prev :: l := by
  induction l generalizing prev with
  | nil => rfl
  | cons b rest ih =>
    simp only [List.dropLast_cons₂, List.getLastD_cons, List.cons_append, ih b]

lemma dropLast_concat_getLastD' (prev : Cell) (l : List Cell) :
    (prev :: l).dropLast ++ [l.getLast?.getD prev] = prev :: l := by
  simpa [List.getLastD_eq_getLast?] using dropLast_concat_getLastD prev l

lemma adj_stepDir (d : Direction) (p : Cell) : adj (stepDir d p) p := by
  cases d <;> simp [adj, stepDir]

lemma tick_running_eq {pf : Int × Int} {s s' : GameState}
    (h : tick pf s = .running s') : s' = fixedTick s := by
  unfold tick at h
  split at h
  · exact GameOutcome.noConfusion h
  · split at h
    · exact GameOutcome.noConfusion h
    · injection h with h1
      exact h1.symm

lemma indexToCell_inBounds (i : Nat) (hi : i < PLAYFIELD_MAX_INDEX) :
    border_collision PLAYFIELD (indexToCell i) = false := by
  have hi' : i < 1089 := hi
  simp only [border_collision, indexToCell, PLAYFIELD, Bool.or_eq_false_iff,
    decide_eq_false_iff_not, not_lt]
  constructor <;> omega

/-! Concrete states used by the witnesses and counterexamples. -/

/-- A four-cell loop, head `(0, 1)` about to move Left into `(-1, 1)`, the cell
its own tail occupies before the tick and vacates during it; the snake's cells
are exactly `(0, 0)`, `(-1, 0)`, `(-1, 1)`, `(0, 1)`. -/
def loopState : GameState :=
  { head := { direction := .left, potential_direction := .left, position := (0, 1) },
    body := [(0, 0), (-1, 0), (-1, 1)], lastPosition := (9, 9), apple := (5, 5) }

/-- A five-segment snake whose head at `(0, 1)` moves Left into `(-1, 1)`, a
cell that is still occupied after the move (it is not the tail). -/
def loopState5 : GameState :=
  { head := { direction := .left, potential_direction := .left, position := (0, 1) },
    body := [(0, 0), (-1, 0), (-1, 1), (-1, 2)], lastPosition := (9, 9), apple := (5, 5) }

/-- The 5 by 5 playfield scenario: head at `(2, 0)` moving Right. -/
def borderState : GameState :=
  { head := { direction := .right, potential_direction := .right, position := (2, 0) },
    body := [(1, 0)], lastPosition := (0, 0), apple := (0, 2) }

/-- A state whose pending direction Left is the reverse of the current
direction Right. -/
def staleState : GameState :=
  { head := { direction := .right, potential_direction := .left, position := (0, 0) },
    body := [(-1, 0)], lastPosition := (9, 9), apple := (5, 5) }

/-- The food-consumption scenario: the freshly set-up snake with the apple one
cell to the right of the head. -/
def eatState : GameState :=
  { head := SnakeHead.new, body := [(-1, 0)], lastPosition := (-2, 0), apple := (1, 0) }

/-- C1 counterexample: on the looped snake with cells
(0,0), (-1,0), (-1,1), (0,1) and next head cell (-1,1) — the cell the tail
vacates this tick — the tick keeps running instead of ending in
GameOver(SelfCollision): the body check runs against the post-move segments,
not the pre-move ones. -/
theorem tail_vacated_cell_no_collision :
    nextHeadCell loopState = (-1, 1) ∧ ((-1, 1) : Cell) ∈ segments loopState ∧
      tick PLAYFIELD loopState =
        .running { head := { direction := .left, potential_direction := .left,
                             position := (-1, 1) },
                   body := [(0, 1), (0, 0), (-1, 0)], lastPosition := (-1, 1),
                   apple := (5, 5) } := by
  decide

/-- C1 (amended): when the next head cell is in bounds and does not hold the
apple, the tick ends in GameOver(SelfCollision) exactly when the next head cell
is one of the post-move segment cells, i.e. the pre-move head cell or a
pre-move body cell other than the tail; the vacated tail cell no longer
counts. -/
theorem self_collision_checks_postmove (pf : Int × Int) (s : GameState)
    (ha : s.apple ≠ nextHeadCell s)
    (hb : border_collision pf (nextHeadCell s) = false) :
    tick pf s = .gameOver .selfCollision (fixedTick s) ↔
      nextHeadCell s ∈ (s.head.position :: s.body).dropLast := by
  have hpos : (fixedTick s).head.position = nextHeadCell s := rfl
  have ha' : ¬ (s.apple =
      stepDir (arbitrate s.head.direction s.head.potential_direction) s.head.position) := ha
  have hbody : (fixedTick s).body = (s.head.position :: s.body).dropLast := by
    simp [fixedTick, shiftBody_eq, ha']
  have hcol : snake_body_collision (nextHeadCell s)
        ((s.head.position :: s.body).dropLast) = true ↔
      nextHeadCell s ∈ (s.head.position :: s.body).dropLast := by
    simp [snake_body_collision]
  unfold tick
  rw [hpos, hb, hbody]
  simp only [Bool.false_eq_true, if_false]
  by_cases hm : nextHeadCell s ∈ (s.head.position :: s.body).dropLast
  · rw [if_pos (hcol.mpr hm)]
    simp [hm]
  · rw [if_neg (fun hh => hm (hcol.mp hh))]
    simp [hm]

/-- C1 (amended) witness: the five-segment loop does end in
GameOver(SelfCollision) when the head moves into a post-move-occupied cell. -/
theorem self_collision_checks_postmove_witness :
    tick PLAYFIELD loopState5 = .gameOver .selfCollision (fixedTick loopState5) :=
  (self_collision_checks_postmove PLAYFIELD loopState5 (by decide) (by decide)).mpr
    (by decide)

/-- C2 counterexample: on the 5 by 5 playfield with head `(2, 0)` moving Right
the tick does end in GameOver(BoundaryCollision), but movement has been
applied: the head sits at the out-of-bounds cell `(3, 0)` and the body has
shifted, contradicting the claim that positions stay at their pre-tick
values. -/
theorem boundary_tick_moves_head :
    tick (5, 5) borderState = .gameOver .boundary (fixedTick borderState) ∧
      (fixedTick borderState).head.position = (3, 0) ∧
      (fixedTick borderState).head.position ≠ borderState.head.position ∧
      (fixedTick borderState).body ≠ borderState.body := by
  decide

/-- C2 (amended): whenever the computed next head cell is out of bounds the
tick ends in GameOver(BoundaryCollision), but only after the movement has been
committed: the reported final state has its head at the out-of-bounds next
head cell. -/
theorem boundary_gameover_after_move (pf : Int × Int) (s : GameState)
    (hb : border_collision pf (nextHeadCell s) = true) :
    tick pf s = .gameOver .boundary (fixedTick s) ∧
      (fixedTick s).head.position = nextHeadCell s := by
  have hpos : (fixedTick s).head.position = nextHeadCell s := rfl
  refine ⟨?_, hpos⟩
  unfold tick
  rw [hpos, hb]
  simp

/-- C2 (amended) witness: the 5 by 5 scenario reaches
GameOver(BoundaryCollision). -/
theorem boundary_gameover_after_move_witness :
    tick (5, 5) borderState = .gameOver .boundary (fixedTick borderState) :=
  (boundary_gameover_after_move (5, 5) borderState (by decide)).1

/-- C3: direction arbitration ignores a request for the exact reverse of the
current direction and adopts any other request, so the arbitrated direction is
never the opposite of the incoming current direction; the fixed tick uses
exactly this arbitrated direction, both as the new current direction and for
the head's move. -/
theorem arbitration_correct :
    (∀ c p : Direction,
        (p = c.opposite → arbitrate c p = c) ∧
          (p ≠ c.opposite → arbitrate c p = p) ∧ arbitrate c p ≠ c.opposite) ∧
      ∀ s : GameState,
        (fixedTick s).head.direction =
            arbitrate s.head.direction s.head.potential_direction ∧
          (fixedTick s).head.position =
            stepDir (arbitrate s.head.direction s.head.potential_direction)
              s.head.position := by
  refine ⟨fun c p => ?_, fun s => ⟨rfl, rfl⟩⟩
  cases c <;> cases p <;> decide

/-- C3 witness: a Left request against a Right current direction is ignored,
while an Up request is adopted. -/
theorem arbitration_correct_witness :
    arbitrate .right .left = .right ∧ arbitrate .right .up = .up :=
  ⟨(arbitration_correct.1 .right .left).1 rfl,
   (arbitration_correct.1 .right .up).2.1 (by decide)⟩

/-- C4: on a tick that ends with the game still running, the number of snake
segments grows by exactly one when the next head cell holds the apple, and is
unchanged otherwise. -/
theorem growth_changes_length (pf : Int × Int) (s s' : GameState)
    (h : tick pf s = .running s') :
    (s.apple = nextHeadCell s → (segments s').length = (segments s).length + 1) ∧
      (s.apple ≠ nextHeadCell s → (segments s').length = (segments s).length) := by
  have hs : s' = fixedTick s := tick_running_eq h
  subst hs
  constructor
  · intro he
    have he' : s.apple =
        stepDir (arbitrate s.head.direction s.head.potential_direction)
          s.head.position := he
    simp [segments, fixedTick, shiftBody_eq, he', List.length_dropLast]
  · intro he
    have he' : ¬ (s.apple =
        stepDir (arbitrate s.head.direction s.head.potential_direction)
          s.head.position) := he
    simp [segments, fixedTick, shiftBody_eq, he', List.length_dropLast]

/-- C4 witness: head at (0,0) moving Right with the apple at (1,0): after one
tick the head is at (1,0) and the segment count went from 2 to 3. -/
theorem growth_changes_length_witness :
    (segments (fixedTick eatState)).length = (segments eatState).length + 1 ∧
      (fixedTick eatState).head.position = (1, 0) :=
  ⟨(growth_changes_length PLAYFIELD eatState (fixedTick eatState) (by decide)).1
      (by decide),
   by decide⟩

/-- C5: whatever the occupied set and whatever the random draws, when the
rejection loop of get_valid_apple_spawn returns a cell, that cell is outside
the occupied set and inside the playfield bounds. -/
theorem apple_spawn_valid :
    ∀ (used : List Cell) (draws : List (Fin PLAYFIELD_MAX_INDEX)) (c : Cell),
      get_valid_apple_spawn used draws = some c →
        c ∉ used ∧ border_collision PLAYFIELD c = false := by
  intro used draws
  induction draws with
  | nil =>
    intro c h
    exact absurd h (by simp [get_valid_apple_spawn])
  | cons d rest ih =>
    intro c h
    simp only [get_valid_apple_spawn] at h
    by_cases hm : indexToCell d.val ∈ used
    · rw [if_pos hm] at h
      exact ih c h
    · rw [if_neg hm] at h
      obtain rfl : indexToCell d.val = c := Option.some.inj h
      exact ⟨hm, indexToCell_inBounds d.val d.isLt⟩

/-- C5 witness: with only (0,0) occupied, the draw 0 yields the cell
(-16,-16), which is unoccupied and in bounds. -/
theorem apple_spawn_valid_witness :
    ((-16, -16) : Cell) ∉ ([((0 : Int), (0 : Int))] : List Cell) ∧
      border_collision PLAYFIELD (-16, -16) = false :=
  apple_spawn_valid [(0, 0)] [⟨0, by decide⟩] (-16, -16) (by decide)

/-- C6 (divergence between code and spec): when every playfield cell is
occupied, every draw is rejected, so the rejection loop of
get_valid_apple_spawn never returns no matter how many draws it consumes — the
code loops forever; there is no NoSpaceAvailable report anywhere in the
source. -/
theorem apple_spawn_full_field_diverges :
    ∀ draws : List (Fin PLAYFIELD_MAX_INDEX),
      get_valid_apple_spawn allCells draws = none := by
  intro draws
  induction draws with
  | nil => rfl
  | cons d rest ih =>
    have hm : indexToCell d.val ∈ allCells :=
      List.mem_map_of_mem indexToCell (List.mem_range.mpr d.isLt)
    simp [get_valid_apple_spawn, hm, ih]

/-- C7 counterexample: with current direction Right and pending Left, the tick
leaves pending_direction at Left while the resulting current direction is
Right — the Simulation Step never resets the pending slot, so after the tick
the two differ, contrary to the claimed read-and-clear. -/
theorem pending_not_cleared :
    tick PLAYFIELD staleState =
        .running { head := { direction := .right, potential_direction := .left,
                             position := (1, 0) },
                   body := [(0, 0)], lastPosition := (-1, 0), apple := (5, 5) } ∧
      (fixedTick staleState).head.potential_direction ≠
        (fixedTick staleState).head.direction := by
  decide

/-- C7 (amended): the tick never writes pending_direction — it survives the
tick unchanged; it coincides with the resulting current direction exactly when
it was not a reversal request; and a stale pending value cannot change the
current direction on a later tick, since re-arbitrating the same pending value
is idempotent. -/
theorem pending_persistence (s : GameState) :
    (fixedTick s).head.potential_direction = s.head.potential_direction ∧
      ((fixedTick s).head.direction = s.head.potential_direction ↔
        s.head.potential_direction ≠ s.head.direction.opposite) ∧
      (fixedTick (fixedTick s)).head.direction = (fixedTick s).head.direction := by
  refine ⟨rfl, ?_, ?_⟩
  · have key : ∀ c p : Direction, (arbitrate c p = p ↔ p ≠ c.opposite) := by
      intro c p
      cases c <;> cases p <;> decide
    exact key s.head.direction s.head.potential_direction
  · have key : ∀ c p : Direction, arbitrate (arbitrate c p) p = arbitrate c p := by
      intro c p
      cases c <;> cases p <;> decide
    exact key s.head.direction s.head.potential_direction

/-- C8: a tick maps a snake whose consecutive segments are grid-adjacent
(Manhattan distance one, head included) to a snake with the same property,
growth tick or not. -/
theorem tick_preserves_adjacency (s : GameState)
    (h : (segments s).Chain' adj) : (segments (fixedTick s)).Chain' adj := by
  have hadj : adj (nextHeadCell s) s.head.position := adj_stepDir _ _
  by_cases he : s.apple = nextHeadCell s
  · have he' : s.apple =
        stepDir (arbitrate s.head.direction s.head.potential_direction)
          s.head.position := he
    have hseg : segments (fixedTick s) =
        nextHeadCell s :: s.head.position :: s.body := by
      simp [segments, fixedTick, shiftBody_eq, he', dropLast_concat_getLastD',
        nextHeadCell]
    rw [hseg]
    exact List.chain'_cons.2 ⟨hadj, h⟩
  · have he' : ¬ (s.apple =
        stepDir (arbitrate s.head.direction s.head.potential_direction)
          s.head.position) := he
    have hseg : segments (fixedTick s) =
        nextHeadCell s :: (s.head.position :: s.body).dropLast := by
      simp [segments, fixedTick, shiftBody_eq, he', nextHeadCell]
    rw [hseg]
    refine List.chain'_cons'.2 ⟨?_, ?_⟩
    · intro y hy
      cases hb : s.body with
      | nil => simp [hb] at hy
      | cons b t =>
        rw [hb, List.dropLast_cons₂, List.head?_cons, Option.mem_some_iff] at hy
        rw [← hy]
        exact hadj
    · have h2 : ((s.head.position :: s.body).dropLast ++
          [s.body.getLastD s.head.position]).Chain' adj := by
        rw [dropLast_concat_getLastD]
        exact h
      exact (List.chain'_append.1 h2).1

/-- C8 witness: the freshly set-up snake is adjacent and stays adjacent over a
tick. -/
theorem tick_preserves_adjacency_witness :
    (segments (fixedTick (initialState (5, 5)))).Chain' adj :=
  tick_preserves_adjacency (initialState (5, 5))
    (List.chain'_cons.mpr ⟨by decide, List.chain'_singleton _⟩)

/-- The spec's list-level advance operation (section 4.2), following the
spec's words: prepend the next head, and drop the last segment unless growing;
growing retains it, which is the same as re-appending a segment at the
pre-move tail cell. -/
def advanceSpec (next_head : Cell) (grow : Bool) (segs : List Cell) : List Cell :=
  if grow then next_head :: segs else next_head :: segs.dropLast

/-- C9 (refinement): the implementation's per-tick movement — shift every body
segment in place to its predecessor's cell, move the head one cell, and on
growth append a segment at the cached pre-move tail cell — produces exactly
the segment list of the spec's advance(next_head, grow), where grow holds
exactly when the apple sits on the next head cell. -/
theorem movement_refines_advanceSpec (s : GameState) :
    segments (fixedTick s) =
      advanceSpec (nextHeadCell s) (decide (s.apple = nextHeadCell s))
        (segments s) := by
  by_cases he : s.apple = nextHeadCell s
  · have he' : s.apple =
        stepDir (arbitrate s.head.direction s.head.potential_direction)
          s.head.position := he
    simp [segments, fixedTick, advanceSpec, shiftBody_eq, he', he, nextHeadCell,
      dropLast_concat_getLastD']
  · have he' : ¬ (s.apple =
        stepDir (arbitrate s.head.direction s.head.potential_direction)
          s.head.position) := he
    simp [segments, fixedTick, advanceSpec, shiftBody_eq, he', he, nextHeadCell]

/-- C10 counterexample: with the apple at (1,0) the very first tick grows the
snake, and the grown segment lands at (-1,0) — the tail cell cached by this
tick's body shift — not at the (-2,0) the cache was initialised to, which is
on no segment at all after the tick. -/
theorem first_tick_growth_not_cache :
    (initialState (1, 0)).lastPosition = (-2, 0) ∧
      (initialState (1, 0)).apple = nextHeadCell (initialState (1, 0)) ∧
      segments (fixedTick (initialState (1, 0))) = [(1, 0), (0, 0), (-1, 0)] ∧
      ((-2, 0) : Cell) ∉ segments (fixedTick (initialState (1, 0))) := by
  decide

/-- C10 (amended): at simulation start the snake is the head at (0,0) plus one
body segment at (-1,0), both direction fields are Right, the tail-drop cache
is initialised to (-2,0), and adjacency already holds; but the cache is
overwritten by the body shift before growth reads it, so a first-tick growth
lands at (-1,0) — the pre-move tail cell — not at (-2,0). -/
theorem initial_state_spec (a : Cell) :
    (initialState a).head.position = (0, 0) ∧
      (initialState a).body = [(-1, 0)] ∧
      (initialState a).head.direction = .right ∧
      (initialState a).head.potential_direction = .right ∧
      (initialState a).lastPosition = (-2, 0) ∧
      (segments (initialState a)).Chain' adj ∧
      (a = nextHeadCell (initialState a) →
        segments (fixedTick (initialState a)) = [(1, 0), (0, 0), (-1, 0)]) := by
  refine ⟨rfl, rfl, rfl, rfl, rfl,
    List.chain'_cons.mpr
      ⟨show adj ((0 : Int), (0 : Int)) (-1, 0) by decide,
       List.chain'_singleton _⟩, ?_⟩
  intro ha
  have ha' : a = ((1 : Int), (0 : Int)) := ha
  subst ha'
  decide

/-- C10 (amended) witness: a first tick that grows, from the initial state
with the apple at (1,0), yields segments (1,0), (0,0), (-1,0). -/
theorem initial_state_spec_witness :
    segments (fixedTick (initialState (1, 0))) = [(1, 0), (0, 0), (-1, 0)] :=
  (initial_state_spec (1, 0)).2.2.2.2.2.2 rfl
